import Mathlib

/-!
Verification of the coverage union-aggregation and quality-gate engine
implemented in `scripts/python/run_dotnet.py`.

The embedding below mirrors, definition by definition:
  * `_CC_RE` / `re.search` on a condition-coverage string  → `ccSearch`
  * `parse_cobertura_union`                                → `parse_cobertura_union`
  * the threshold block of `main` (lines 315–333)          → `thresholdOk`
  * the status/override block of `main` (lines 336–388)    → `gateOutcome`

XML attributes are modelled at the point the Python code reads them: an
attribute is an `Option String`-like value; attributes that the code pushes
through `int(...)` are modelled as `Option Int` where `none` stands for an
`int()` parse failure (the code catches those and either skips the line or
substitutes `0`).  Python floats are modelled by `ℚ`; `round(x, 2)` is
modelled by exact half-to-even rounding on the rational value (`round2`).
-/

set_option maxRecDepth 4000

namespace RunDotnet

/-- Digits of an ASCII numeral to a natural number, as `int(...)` would read
consecutive digit characters. -/
def digitsToNat (l : List Char) : Nat :=
  l.foldl (fun n c => n * 10 + (c.toNat - 48)) 0

/-- Attempt to match the regex `\((\d+)\s*/\s*(\d+)\)` (`_CC_RE`) anchored at
the head of the character list, returning the two captured groups. -/
def ccMatchAt (cs : List Char) : Option (Nat × Nat) :=
  match cs with
  | '(' :: r0 =>
    let d1 := r0.takeWhile Char.isDigit
    if d1.isEmpty then none
    else
      let r1 := (r0.dropWhile Char.isDigit).dropWhile Char.isWhitespace
      match r1 with
      | '/' :: r2 =>
        let r3 := r2.dropWhile Char.isWhitespace
        let d2 := r3.takeWhile Char.isDigit
        if d2.isEmpty then none
        else
          match r3.dropWhile Char.isDigit with
          | ')' :: _ => some (digitsToNat d1, digitsToNat d2)
          | _ => none
      | _ => none
  | _ => none

/-- `_CC_RE.search(cc)`: leftmost match of `\((\d+)\s*/\s*(\d+)\)` in the
string, `none` when the expression does not contain the pattern. -/
def ccSearch : List Char → Option (Nat × Nat)
  | [] => none
  | c :: rest =>
    match ccMatchAt (c :: rest) with
    | some r => some r
    | none => ccSearch rest

/-- Python `float(s)` restricted to plain decimal numerals
(optional sign, digits, optional fractional part); `none` models the
`ValueError` that `float` raises on any other input.  Exponent, `inf`/`nan`
and whitespace-padded forms are outside the inputs this development uses. -/
def pyFloat (s : String) : Option ℚ :=
  let cs := s.toList
  let signed : Bool × List Char :=
    match cs with
    | '-' :: r => (true, r)
    | '+' :: r => (false, r)
    | _ => (false, cs)
  let ip := signed.2.takeWhile Char.isDigit
  let rest := signed.2.dropWhile Char.isDigit
  let mag : Option ℚ :=
    match rest with
    | [] => if ip.isEmpty then none else some (digitsToNat ip)
    | '.' :: fp =>
      if fp.all Char.isDigit && !(ip.isEmpty && fp.isEmpty) then
        some ((digitsToNat ip : ℚ) + (digitsToNat fp : ℚ) / ((10 : ℚ) ^ fp.length))
      else none
    | _ => none
  mag.map (fun m => if signed.1 then -m else m)

/-- Python `str.lower()` as used on the `branch` attribute before the
comparison with `"true"` (character-wise lowercasing). -/
def strLower (s : String) : String := ⟨s.data.map Char.toLower⟩

/-- Python `str.strip()`: drop leading and trailing whitespace. -/
def pyStrip (s : String) : String :=
  ⟨((s.data.dropWhile Char.isWhitespace).reverse.dropWhile Char.isWhitespace).reverse⟩

/-- Half-to-even rounding of a rational to an integer, the rule Python's
`round` applies to the value it is given. -/
def roundHalfEven (q : ℚ) : ℤ :=
  let f := ⌊q⌋
  let r := q - (f : ℚ)
  if r < 1 / 2 then f
  else if 1 / 2 < r then f + 1
  else if f % 2 = 0 then f else f + 1

/-- `round(x, 2)` on the exact rational value. -/
def round2 (q : ℚ) : ℚ := (roundHalfEven (q * 100) : ℚ) / 100

/-- One `<line>` element as `parse_cobertura_union` reads it:
`number` and `hits` are the results of `int(...)` on the corresponding
attributes (`none` = the `int()` call raised), `branch` is the raw `branch`
attribute (`""` when absent), `cc` the raw `condition-coverage` attribute. -/
structure LineEntry where
  number : Option Int
  hits : Option Int
  branch : String
  cc : Option String
deriving DecidableEq

/-- One `<class>` element: its `filename` attribute (`none` when absent) and
its `<line>` elements. -/
structure ClassEntry where
  filename : Option String
  lines : List LineEntry
deriving DecidableEq

/-- A successfully parsed cobertura document: its `<class>` elements. -/
abbrev ReportDoc := List ClassEntry

/-- The mutable state of `parse_cobertura_union`'s scan:
`line_hits` as (key set, boolean valuation) and `branch_counts` as
(key set, covered valuation, valid valuation).  The valuations are `false`
resp. `0` outside the key sets, matching `dict.get(key, default)`. -/
structure UState where
  keys : Finset (String × Int)
  hit : String × Int → Bool
  bkeys : Finset (String × Int)
  bcov : String × Int → Nat
  bval : String × Int → Nat

def initState : UState := ⟨∅, fun _ => false, ∅, fun _ => 0, fun _ => 0⟩

/-- The body of the `for line_el in class_el.findall(".//line")` loop. -/
def stepLine (f : String) (st : UState) (le : LineEntry) : UState :=
  match le.number with
  | none => st
  | some n =>
    if n ≤ 0 then st
    else
      let key : String × Int := (f, n)
      let hits : Int := le.hits.getD 0
      let st1 : UState :=
        ⟨insert key st.keys,
         fun k => if k = key then st.hit key || decide (0 < hits) else st.hit k,
         st.bkeys, st.bcov, st.bval⟩
      if strLower le.branch = "true" then
        match le.cc with
        | none => st1
        | some cc =>
          if cc = "" then st1
          else
            match ccSearch cc.data with
            | none => st1
            | some (covered, valid) =>
              ⟨st1.keys, st1.hit,
               insert key st1.bkeys,
               fun k => if k = key then max (st1.bcov key) covered else st1.bcov k,
               fun k => if k = key then max (st1.bval key) valid else st1.bval k⟩
      else st1

/-- The body of the `for class_el in root.findall(".//class")` loop:
a class without a (non-empty) `filename` attribute is skipped. -/
def stepClass (st : UState) (c : ClassEntry) : UState :=
  match c.filename with
  | none => st
  | some f => if f = "" then st else c.lines.foldl (stepLine f) st

/-- Processing one parsed document. -/
def stepDoc (st : UState) (d : ReportDoc) : UState :=
  d.foldl stepClass st

/-- The `for p in paths` loop: a report whose `ET.parse` raised contributes
nothing to the maps (its error is collected separately). -/
def unionState (reports : List (Except String ReportDoc)) : UState :=
  reports.foldl
    (fun acc r =>
      match r with
      | .ok d => stepDoc acc d
      | .error _ => acc)
    initState

/-- The dictionary `parse_cobertura_union` returns.  The `errors` field holds
the messages of per-report parse exceptions (the Python code also records the
offending path; the message alone is kept here). -/
structure UnionOut where
  lines_covered : Nat
  lines_valid : Nat
  branches_covered : Nat
  branches_valid : Nat
  line_pct : ℚ
  branch_pct : ℚ
  method : String
  errors : List String
deriving DecidableEq

/-- `parse_cobertura_union(paths)`. -/
def parse_cobertura_union (reports : List (Except String ReportDoc)) : UnionOut :=
  let st := unionState reports
  let lines_valid := st.keys.card
  let lines_covered := (st.keys.filter (fun k => st.hit k = true)).card
  let branches_valid := st.bkeys.sum (fun k => st.bval k)
  let branches_covered := st.bkeys.sum (fun k => st.bcov k)
  ⟨lines_covered, lines_valid, branches_covered, branches_valid,
   (if 0 < lines_valid then round2 ((lines_covered : ℚ) * 100 / (lines_valid : ℚ)) else 0),
   (if 0 < branches_valid then round2 ((branches_covered : ℚ) * 100 / (branches_valid : ℚ)) else 0),
   "union_by_file_line",
   reports.filterMap (fun r => match r with | .error e => some e | .ok _ => none)⟩

/-- `coverage` in `main`: `None` unless at least one cobertura path was found
(`if cobertura_paths:`), otherwise the union aggregate. -/
def coverageOf (paths : List (Except String ReportDoc)) : Option UnionOut :=
  match paths with
  | [] => none
  | _ => some (parse_cobertura_union paths)

/-- The threshold block of `main` (lines 320–328).  `lines_min` and
`branches_min` are the already-resolved environment strings; the empty string
disables an axis (string falsiness).  The `try/except Exception: pass`
semantics are kept: a `float()` failure aborts the remaining checks and
leaves `threshold_ok` at whatever value it had accumulated. -/
def thresholdOk (coverage : Option UnionOut) (lines_min branches_min : String) : Bool :=
  match coverage with
  | none => true
  | some cov =>
    if lines_min = "" ∧ branches_min = "" then true
    else if lines_min ≠ "" then
      match pyFloat lines_min with
      | none => true
      | some l =>
        let ok1 := decide (l ≤ cov.line_pct)
        if branches_min ≠ "" then
          match pyFloat branches_min with
          | none => ok1
          | some b => ok1 && decide (b ≤ cov.branch_pct)
        else ok1
    else
      match pyFloat branches_min with
      | none => true
      | some b => decide (b ≤ cov.branch_pct)

/-- `override_allow and override_allow.strip() not in ('0', '', 'false', 'False')`. -/
def overrideAllowOk (oa : Option String) : Bool :=
  match oa with
  | none => false
  | some s =>
    s != "" && !(pyStrip s == "0" || pyStrip s == "" || pyStrip s == "false" || pyStrip s == "False")

/-- The audit record appended to `coverage-override.jsonl` (its deterministic
fields; timestamp, solution/configuration and CI metadata are environmental). -/
structure OverrideRecord where
  status : String
  line_pct : Option ℚ
  branch_pct : Option ℚ
  lines_min : String
  branches_min : String
  override_reason : String
deriving DecidableEq

/-- What the tail of `main` produces for a run. -/
structure GateResult where
  threshold_ok : Bool
  status : String
  overrides : List OverrideRecord
  exit_code : Int
deriving DecidableEq

/-- Lines 315–388 of `main`: resolve the two threshold environment variables
(with defaults `"90"` / `"85"` when absent), evaluate the gate, compute the
base status, apply the override rule, and map the final status to the exit
code.  `overrides` is the list of audit records appended during the run. -/
def gateOutcome (test_rc : Int) (coverage : Option UnionOut)
    (lines_min_env branches_min_env override_allow override_reason : Option String) :
    GateResult :=
  let lines_min := lines_min_env.getD "90"
  let branches_min := branches_min_env.getD "85"
  let tOk := thresholdOk coverage lines_min branches_min
  let base :=
    if test_rc = 0 ∧ tOk = true then "ok"
    else if test_rc ≠ 0 then "tests_failed" else "coverage_failed"
  let allowed := (base == "coverage_failed") && (test_rc == 0) && overrideAllowOk override_allow
  let reasonOk :=
    match override_reason with
    | some r => r != "" && pyStrip r != ""
    | none => false
  let statusOverrides : String × List OverrideRecord :=
    if allowed && reasonOk then
      ("coverage_overridden",
       [⟨"coverage_overridden",
         coverage.map (fun c => c.line_pct), coverage.map (fun c => c.branch_pct),
         lines_min, branches_min, pyStrip (override_reason.getD "")⟩])
    else (base, [])
  let status := statusOverrides.1
  let ec : Int :=
    if status = "ok" ∨ status = "coverage_overridden" then 0
    else if status = "coverage_failed" then 2 else 1
  ⟨tOk, status, statusOverrides.2, ec⟩

/-!
## Semantic layer

`parse_cobertura_union` is a left fold of dictionary updates.  To reason
about it we flatten the scan into a list of line-level facts and
characterise the final state of the fold by order-insensitive functions of
that list.  Nothing below changes the executable definitions above.
-/

/-- The information one accepted `<line>` element contributes to the maps:
its key, whether the line was hit, and (for a branch line with a parseable
condition-coverage expression) the captured (covered, valid) pair. -/
structure Fact where
  key : String × Int
  hit : Bool
  br : Option (Nat × Nat)
deriving DecidableEq

/-- The fact a `<line>` element under filename `f` contributes, `none` when
the element is skipped (unparsable or non-positive `number`). -/
def entryFact (f : String) (le : LineEntry) : Option Fact :=
  match le.number with
  | none => none
  | some n =>
    if n ≤ 0 then none
    else
      let br : Option (Nat × Nat) :=
        if strLower le.branch = "true" then
          match le.cc with
          | none => none
          | some cc => if cc = "" then none else ccSearch cc.data
        else none
      some ⟨(f, n), decide (0 < le.hits.getD 0), br⟩

/-- Applying one fact to the scan state. -/
def applyFact (st : UState) (fa : Fact) : UState :=
  let st1 : UState :=
    ⟨insert fa.key st.keys,
     fun k => if k = fa.key then st.hit fa.key || fa.hit else st.hit k,
     st.bkeys, st.bcov, st.bval⟩
  match fa.br with
  | none => st1
  | some (covered, valid) =>
    ⟨st1.keys, st1.hit,
     insert fa.key st1.bkeys,
     fun k => if k = fa.key then max (st1.bcov fa.key) covered else st1.bcov k,
     fun k => if k = fa.key then max (st1.bval fa.key) valid else st1.bval k⟩

/-- The facts contributed by one `<class>` element. -/
def classFacts (c : ClassEntry) : List Fact :=
  match c.filename with
  | none => []
  | some f => if f = "" then [] else c.lines.filterMap (entryFact f)

/-- The facts contributed by one parsed document. -/
def docFacts (d : ReportDoc) : List Fact :=
  d.flatMap classFacts

/-- The facts contributed by a run's report list (an unparsable report
contributes none). -/
def factsOf (reports : List (Except String ReportDoc)) : List Fact :=
  reports.flatMap (fun r => match r with | .ok d => docFacts d | .error _ => [])

/-- Keys mentioned by a fact list. -/
def keySetL (fs : List Fact) : Finset (String × Int) :=
  (fs.map Fact.key).toFinset

/-- Keys some fact of the list marks as hit. -/
def covSetL (fs : List Fact) : Finset (String × Int) :=
  ((fs.filter (fun fa => fa.hit)).map Fact.key).toFinset

/-- Keys carrying a parsed branch pair somewhere in the list. -/
def bkeySetL (fs : List Fact) : Finset (String × Int) :=
  (fs.filterMap (fun fa => fa.br.map (fun _ => fa.key))).toFinset

/-- Whether any fact of the list hits key `k`. -/
def hitAnyL (fs : List Fact) (k : String × Int) : Bool :=
  fs.any (fun fa => decide (fa.key = k) && fa.hit)

/-- Largest covered-branch count any fact of the list reports for key `k`. -/
def covMax (fs : List Fact) (k : String × Int) : Nat :=
  fs.foldr
    (fun fa m =>
      match fa.br with
      | some (c, _) => if fa.key = k then max c m else m
      | none => m)
    0

/-- Largest valid-branch count any fact of the list reports for key `k`. -/
def valMax (fs : List Fact) (k : String × Int) : Nat :=
  fs.foldr
    (fun fa m =>
      match fa.br with
      | some (_, v) => if fa.key = k then max v m else m
      | none => m)
    0

/-- A one-class report with a single covered line 1 of file `"f"`. -/
def exLineA : ReportDoc := [⟨some "f", [⟨some 1, some 1, "", none⟩]⟩]

/-- A one-class report with a single uncovered line 2 of file `"f"`. -/
def exLineB : ReportDoc := [⟨some "f", [⟨some 2, some 0, "", none⟩]⟩]

/-- A line entry with the given line number and hit count, not flagged as a
branch point. -/
def mkLine (n : Int) (h : Int) : LineEntry := ⟨some n, some h, "", none⟩

/-- Report A of the C6 scenario: file `"f"`, lines 1–100 valid, lines 1–80
covered (`lines_valid = 100`, `lines_covered = 80`). -/
def reportA : ReportDoc :=
  [⟨some "f", (List.range 100).map (fun i => mkLine ((i : Int) + 1) (if i + 1 ≤ 80 then 1 else 0))⟩]

/-- Report B as the C6 scenario literally describes it: lines 1–90 shared
with A plus exclusive lines 101–110 (100 valid), covered lines 1–85
(85 covered), of which exactly 5 (lines 81–85) are not covered by A. -/
def reportB5 : ReportDoc :=
  [⟨some "f",
    (List.range 90).map (fun i => mkLine ((i : Int) + 1) (if i + 1 ≤ 85 then 1 else 0))
    ++ (List.range 10).map (fun i => mkLine ((i : Int) + 101) 0)⟩]

/-- Report B with 10 newly covered lines: lines 1–90 shared with A plus
exclusive lines 101–110 (100 valid), covered lines 1–75, 81–85 and 101–105
(85 covered), of which 10 (81–85 and 101–105) are not covered by A. -/
def reportB10 : ReportDoc :=
  [⟨some "f",
    (List.range 90).map (fun i =>
      mkLine ((i : Int) + 1) (if i + 1 ≤ 75 || (81 ≤ i + 1 && i + 1 ≤ 85) then 1 else 0))
    ++ (List.range 10).map (fun i => mkLine ((i : Int) + 101) (if i + 1 ≤ 5 then 1 else 0))⟩]

/-- The aggregate of `[exLineA, exLineB]`: `line_pct = 50`, `branch_pct = 0`. -/
def exUnion50 : UnionOut := parse_cobertura_union [.ok exLineA, .ok exLineB]

/-- The aggregate of `[exLineA]`: `line_pct = 100`, `branch_pct = 0`. -/
def exUnion100 : UnionOut := parse_cobertura_union [.ok exLineA]

/-- A report whose single line is branch-flagged but carries an unparsable
condition-coverage expression. -/
def exBranchBad : ReportDoc := [⟨some "f", [⟨some 3, some 1, "true", some "garbage"⟩]⟩]

theorem stepLine_eq_applyFact (f : String) (st : UState) (le : LineEntry) :
    stepLine f st le = (entryFact f le).elim st (applyFact st) := by
  rcases le with ⟨num, hits, branch, cc⟩
  cases num with
  | none => rfl
  | some n =>
    by_cases hn : n ≤ 0
    · simp [stepLine, entryFact, hn]
    · by_cases hb : strLower branch = "true"
      · cases cc with
        | none => simp [stepLine, entryFact, hn, hb, applyFact]
        | some c =>
          by_cases hc : c = ""
          · simp [stepLine, entryFact, hn, hb, hc, applyFact]
          · cases hcc : ccSearch c.data with
            | none => simp [stepLine, entryFact, hn, hb, hc, hcc, applyFact]
            | some cv =>
              obtain ⟨cov, val⟩ := cv
              simp [stepLine, entryFact, hn, hb, hc, hcc, applyFact]
      · simp [stepLine, entryFact, hn, hb, applyFact]

theorem foldl_stepLine_eq (f : String) (ls : List LineEntry) (st : UState) :
    ls.foldl (stepLine f) st = (ls.filterMap (entryFact f)).foldl applyFact st := by
  induction ls generalizing st with
  | nil => rfl
  | cons le rest ih =>
    rw [List.foldl_cons, stepLine_eq_applyFact]
    cases h : entryFact f le with
    | none => simp [h, List.filterMap_cons, ih]
    | some fa => simp [h, List.filterMap_cons, ih]

theorem stepClass_eq (st : UState) (c : ClassEntry) :
    stepClass st c = (classFacts c).foldl applyFact st := by
  rcases c with ⟨fn, ls⟩
  cases fn with
  | none => rfl
  | some f =>
    by_cases hf : f = "" <;> simp [stepClass, classFacts, hf, foldl_stepLine_eq]

theorem stepDoc_eq (d : ReportDoc) (st : UState) :
    stepDoc st d = (docFacts d).foldl applyFact st := by
  induction d generalizing st with
  | nil => rfl
  | cons c rest ih =>
    show List.foldl stepClass (stepClass st c) rest = _
    rw [show docFacts (c :: rest) = classFacts c ++ docFacts rest from rfl,
        List.foldl_append, ← stepClass_eq]
    exact ih (stepClass st c)

theorem unionState_eq (reports : List (Except String ReportDoc)) :
    unionState reports = (factsOf reports).foldl applyFact initState := by
  have h : ∀ (rs : List (Except String ReportDoc)) (st : UState),
      rs.foldl (fun acc r => match r with | .ok d => stepDoc acc d | .error _ => acc) st
        = (factsOf rs).foldl applyFact st := by
    intro rs
    induction rs with
    | nil => intro st; rfl
    | cons r rest ih =>
      intro st
      cases r with
      | ok d =>
        show List.foldl _ (stepDoc st d) rest = _
        rw [show factsOf (.ok d :: rest) = docFacts d ++ factsOf rest from rfl,
            List.foldl_append, ← stepDoc_eq]
        exact ih (stepDoc st d)
      | error e =>
        show List.foldl _ st rest = _
        rw [show factsOf (.error e :: rest) = factsOf rest from rfl]
        exact ih st
  exact h reports initState

theorem applyFact_keys (st : UState) (fa : Fact) :
    (applyFact st fa).keys = insert fa.key st.keys := by
  rcases fa with ⟨k, h, br⟩
  cases br with
  | none => rfl
  | some cv => obtain ⟨c, v⟩ := cv; rfl

theorem applyFact_hit (st : UState) (fa : Fact) (k : String × Int) :
    (applyFact st fa).hit k
      = if k = fa.key then st.hit fa.key || fa.hit else st.hit k := by
  rcases fa with ⟨ky, h, br⟩
  cases br with
  | none => rfl
  | some cv => obtain ⟨c, v⟩ := cv; rfl

theorem applyFact_bkeys (st : UState) (fa : Fact) :
    (applyFact st fa).bkeys
      = match fa.br with
        | some _ => insert fa.key st.bkeys
        | none => st.bkeys := by
  rcases fa with ⟨ky, h, br⟩
  cases br with
  | none => rfl
  | some cv => obtain ⟨c, v⟩ := cv; rfl

theorem applyFact_bcov (st : UState) (fa : Fact) (k : String × Int) :
    (applyFact st fa).bcov k
      = match fa.br with
        | some (c, _) => if k = fa.key then max (st.bcov fa.key) c else st.bcov k
        | none => st.bcov k := by
  rcases fa with ⟨ky, h, br⟩
  cases br with
  | none => rfl
  | some cv => obtain ⟨c, v⟩ := cv; rfl

theorem applyFact_bval (st : UState) (fa : Fact) (k : String × Int) :
    (applyFact st fa).bval k
      = match fa.br with
        | some (_, v) => if k = fa.key then max (st.bval fa.key) v else st.bval k
        | none => st.bval k := by
  rcases fa with ⟨ky, h, br⟩
  cases br with
  | none => rfl
  | some cv => obtain ⟨c, v⟩ := cv; rfl

theorem foldl_applyFact_keys (fs : List Fact) (st : UState) :
    (fs.foldl applyFact st).keys = st.keys ∪ keySetL fs := by
  induction fs generalizing st with
  | nil => simp [keySetL]
  | cons fa rest ih =>
    rw [List.foldl_cons, ih, applyFact_keys]
    simp [keySetL, Finset.insert_union, Finset.union_insert]

theorem foldl_applyFact_hit (fs : List Fact) (st : UState) (k : String × Int) :
    (fs.foldl applyFact st).hit k = (st.hit k || hitAnyL fs k) := by
  induction fs generalizing st with
  | nil => simp [hitAnyL]
  | cons fa rest ih =>
    rw [List.foldl_cons, ih, applyFact_hit]
    have hcons : hitAnyL (fa :: rest) k
        = ((decide (fa.key = k) && fa.hit) || hitAnyL rest k) := by
      simp [hitAnyL]
    rw [hcons]
    by_cases hk : k = fa.key
    · subst hk
      simp [Bool.or_assoc]
    · have : ¬fa.key = k := fun h => hk h.symm
      simp [hk, this]

theorem foldl_applyFact_bkeys (fs : List Fact) (st : UState) :
    (fs.foldl applyFact st).bkeys = st.bkeys ∪ bkeySetL fs := by
  induction fs generalizing st with
  | nil => simp [bkeySetL]
  | cons fa rest ih =>
    rw [List.foldl_cons, ih, applyFact_bkeys]
    cases hbr : fa.br with
    | none => simp [bkeySetL, List.filterMap_cons, hbr]
    | some cv =>
      simp [bkeySetL, List.filterMap_cons, hbr, Finset.insert_union, Finset.union_insert]

theorem foldl_applyFact_bcov (fs : List Fact) (st : UState) (k : String × Int) :
    (fs.foldl applyFact st).bcov k = max (st.bcov k) (covMax fs k) := by
  induction fs generalizing st with
  | nil => simp [covMax]
  | cons fa rest ih =>
    rw [List.foldl_cons, ih, applyFact_bcov]
    have hcons : covMax (fa :: rest) k
        = match fa.br with
          | some (c, _) => if fa.key = k then max c (covMax rest k) else covMax rest k
          | none => covMax rest k := rfl
    rw [hcons]
    cases hbr : fa.br with
    | none => rfl
    | some cv =>
      obtain ⟨c, v⟩ := cv
      by_cases hk : k = fa.key
      · subst hk
        simp [Nat.max_assoc]
      · have : ¬fa.key = k := fun h => hk h.symm
        simp [hk, this]

theorem foldl_applyFact_bval (fs : List Fact) (st : UState) (k : String × Int) :
    (fs.foldl applyFact st).bval k = max (st.bval k) (valMax fs k) := by
  induction fs generalizing st with
  | nil => simp [valMax]
  | cons fa rest ih =>
    rw [List.foldl_cons, ih, applyFact_bval]
    have hcons : valMax (fa :: rest) k
        = match fa.br with
          | some (_, v) => if fa.key = k then max v (valMax rest k) else valMax rest k
          | none => valMax rest k := rfl
    rw [hcons]
    cases hbr : fa.br with
    | none => rfl
    | some cv =>
      obtain ⟨c, v⟩ := cv
      by_cases hk : k = fa.key
      · subst hk
        simp [Nat.max_assoc]
      · have : ¬fa.key = k := fun h => hk h.symm
        simp [hk, this]

theorem covMax_cons (fa : Fact) (fs : List Fact) (k : String × Int) :
    covMax (fa :: fs) k
      = match fa.br with
        | some (c, _) => if fa.key = k then max c (covMax fs k) else covMax fs k
        | none => covMax fs k := rfl

theorem valMax_cons (fa : Fact) (fs : List Fact) (k : String × Int) :
    valMax (fa :: fs) k
      = match fa.br with
        | some (_, v) => if fa.key = k then max v (valMax fs k) else valMax fs k
        | none => valMax fs k := rfl

theorem keySetL_append (x y : List Fact) :
    keySetL (x ++ y) = keySetL x ∪ keySetL y := by
  simp [keySetL]

theorem covSetL_append (x y : List Fact) :
    covSetL (x ++ y) = covSetL x ∪ covSetL y := by
  simp [covSetL]

theorem bkeySetL_append (x y : List Fact) :
    bkeySetL (x ++ y) = bkeySetL x ∪ bkeySetL y := by
  simp [bkeySetL]

theorem covMax_shift (x : List Fact) (k : String × Int) (m : Nat) :
    x.foldr
      (fun fa m' =>
        match fa.br with
        | some (c, _) => if fa.key = k then max c m' else m'
        | none => m')
      m = max (covMax x k) m := by
  induction x with
  | nil => simp [covMax]
  | cons fa rest ih =>
    rw [List.foldr_cons, ih, covMax_cons]
    cases hbr : fa.br with
    | none => rfl
    | some cv =>
      obtain ⟨c, v⟩ := cv
      by_cases hk : fa.key = k
      · simp [hk, Nat.max_assoc]
      · simp [hk]

theorem valMax_shift (x : List Fact) (k : String × Int) (m : Nat) :
    x.foldr
      (fun fa m' =>
        match fa.br with
        | some (_, v) => if fa.key = k then max v m' else m'
        | none => m')
      m = max (valMax x k) m := by
  induction x with
  | nil => simp [valMax]
  | cons fa rest ih =>
    rw [List.foldr_cons, ih, valMax_cons]
    cases hbr : fa.br with
    | none => rfl
    | some cv =>
      obtain ⟨c, v⟩ := cv
      by_cases hk : fa.key = k
      · simp [hk, Nat.max_assoc]
      · simp [hk]

theorem covMax_append (x y : List Fact) (k : String × Int) :
    covMax (x ++ y) k = max (covMax x k) (covMax y k) := by
  rw [covMax, List.foldr_append, covMax_shift]
  rfl

theorem valMax_append (x y : List Fact) (k : String × Int) :
    valMax (x ++ y) k = max (valMax x k) (valMax y k) := by
  rw [valMax, List.foldr_append, valMax_shift]
  rfl

/-!
### Output characterisation

The six numeric outputs of `parse_cobertura_union` as order-insensitive
functions of the flattened fact list.
-/

theorem union_lines_valid (rs : List (Except String ReportDoc)) :
    (parse_cobertura_union rs).lines_valid = (keySetL (factsOf rs)).card := by
  simp only [parse_cobertura_union]
  rw [unionState_eq, foldl_applyFact_keys]
  simp [initState]

theorem filter_keySet_eq_covSet (fs : List Fact) :
    (keySetL fs).filter (fun k => hitAnyL fs k = true) = covSetL fs := by
  ext k
  simp only [keySetL, covSetL, hitAnyL, Finset.mem_filter, List.mem_toFinset,
    List.mem_map, List.mem_filter, List.any_eq_true, Bool.and_eq_true,
    decide_eq_true_eq]
  constructor
  · rintro ⟨-, fa, hfa, hkey, hhit⟩
    exact ⟨fa, ⟨hfa, hhit⟩, hkey⟩
  · rintro ⟨fa, ⟨hfa, hhit⟩, hkey⟩
    exact ⟨⟨fa, hfa, hkey⟩, fa, hfa, hkey, hhit⟩

theorem union_lines_covered (rs : List (Except String ReportDoc)) :
    (parse_cobertura_union rs).lines_covered = (covSetL (factsOf rs)).card := by
  simp only [parse_cobertura_union]
  rw [unionState_eq]
  have hkeys := foldl_applyFact_keys (factsOf rs) initState
  have hfilter :
      ((List.foldl applyFact initState (factsOf rs)).keys.filter
        (fun k => (List.foldl applyFact initState (factsOf rs)).hit k = true))
        = covSetL (factsOf rs) := by
    rw [← filter_keySet_eq_covSet (factsOf rs)]
    rw [hkeys]
    have : initState.keys = ∅ := rfl
    rw [this, Finset.empty_union]
    refine Finset.filter_congr ?_
    intro k _
    rw [foldl_applyFact_hit]
    have : initState.hit k = false := rfl
    rw [this, Bool.false_or]
  rw [hfilter]

theorem union_branches_valid (rs : List (Except String ReportDoc)) :
    (parse_cobertura_union rs).branches_valid
      = (bkeySetL (factsOf rs)).sum (fun k => valMax (factsOf rs) k) := by
  simp only [parse_cobertura_union]
  rw [unionState_eq, foldl_applyFact_bkeys]
  have h0 : initState.bkeys = ∅ := rfl
  rw [h0, Finset.empty_union]
  refine Finset.sum_congr rfl ?_
  intro k _
  rw [foldl_applyFact_bval]
  have : initState.bval k = 0 := rfl
  rw [this]
  exact Nat.max_eq_right (Nat.zero_le _)

theorem union_branches_covered (rs : List (Except String ReportDoc)) :
    (parse_cobertura_union rs).branches_covered
      = (bkeySetL (factsOf rs)).sum (fun k => covMax (factsOf rs) k) := by
  simp only [parse_cobertura_union]
  rw [unionState_eq, foldl_applyFact_bkeys]
  have h0 : initState.bkeys = ∅ := rfl
  rw [h0, Finset.empty_union]
  refine Finset.sum_congr rfl ?_
  intro k _
  rw [foldl_applyFact_bcov]
  have : initState.bcov k = 0 := rfl
  rw [this]
  exact Nat.max_eq_right (Nat.zero_le _)

theorem union_line_pct (rs : List (Except String ReportDoc)) :
    (parse_cobertura_union rs).line_pct
      = (if 0 < (parse_cobertura_union rs).lines_valid then
          round2 (((parse_cobertura_union rs).lines_covered : ℚ) * 100
            / ((parse_cobertura_union rs).lines_valid : ℚ))
        else 0) := rfl

theorem union_branch_pct (rs : List (Except String ReportDoc)) :
    (parse_cobertura_union rs).branch_pct
      = (if 0 < (parse_cobertura_union rs).branches_valid then
          round2 (((parse_cobertura_union rs).branches_covered : ℚ) * 100
            / ((parse_cobertura_union rs).branches_valid : ℚ))
        else 0) := rfl

theorem union_method (rs : List (Except String ReportDoc)) :
    (parse_cobertura_union rs).method = "union_by_file_line" := rfl

theorem union_errors (rs : List (Except String ReportDoc)) :
    (parse_cobertura_union rs).errors
      = rs.filterMap (fun r => match r with | .error e => some e | .ok _ => none) := rfl

theorem unionOut_ext {a b : UnionOut}
    (h1 : a.lines_covered = b.lines_covered) (h2 : a.lines_valid = b.lines_valid)
    (h3 : a.branches_covered = b.branches_covered) (h4 : a.branches_valid = b.branches_valid)
    (h5 : a.line_pct = b.line_pct) (h6 : a.branch_pct = b.branch_pct)
    (h7 : a.method = b.method) (h8 : a.errors = b.errors) : a = b := by
  cases a
  cases b
  simp_all

/-!
## Claims
-/

/-- C7: merging two well-formed reports in the order `[A, B]` yields the same
AggregateSnapshot — all four counts, both percentages, and the rest of the
output — as merging them in the order `[B, A]`. -/
theorem claim7_union_commutative (A B : ReportDoc) :
    parse_cobertura_union [.ok A, .ok B] = parse_cobertura_union [.ok B, .ok A] := by
  have hAB : factsOf [.ok A, .ok B] = docFacts A ++ docFacts B := by simp [factsOf]
  have hBA : factsOf [.ok B, .ok A] = docFacts B ++ docFacts A := by simp [factsOf]
  have e1 : (parse_cobertura_union [.ok A, .ok B]).lines_covered
      = (parse_cobertura_union [.ok B, .ok A]).lines_covered := by
    rw [union_lines_covered, union_lines_covered, hAB, hBA,
      covSetL_append, covSetL_append, Finset.union_comm]
  have e2 : (parse_cobertura_union [.ok A, .ok B]).lines_valid
      = (parse_cobertura_union [.ok B, .ok A]).lines_valid := by
    rw [union_lines_valid, union_lines_valid, hAB, hBA,
      keySetL_append, keySetL_append, Finset.union_comm]
  have e3 : (parse_cobertura_union [.ok A, .ok B]).branches_covered
      = (parse_cobertura_union [.ok B, .ok A]).branches_covered := by
    rw [union_branches_covered, union_branches_covered, hAB, hBA,
      bkeySetL_append, bkeySetL_append, Finset.union_comm]
    refine Finset.sum_congr rfl ?_
    intro k _
    rw [covMax_append, covMax_append, Nat.max_comm]
  have e4 : (parse_cobertura_union [.ok A, .ok B]).branches_valid
      = (parse_cobertura_union [.ok B, .ok A]).branches_valid := by
    rw [union_branches_valid, union_branches_valid, hAB, hBA,
      bkeySetL_append, bkeySetL_append, Finset.union_comm]
    refine Finset.sum_congr rfl ?_
    intro k _
    rw [valMax_append, valMax_append, Nat.max_comm]
  have e5 : (parse_cobertura_union [.ok A, .ok B]).line_pct
      = (parse_cobertura_union [.ok B, .ok A]).line_pct := by
    rw [union_line_pct, union_line_pct, e1, e2]
  have e6 : (parse_cobertura_union [.ok A, .ok B]).branch_pct
      = (parse_cobertura_union [.ok B, .ok A]).branch_pct := by
    rw [union_branch_pct, union_branch_pct, e3, e4]
  exact unionOut_ext e1 e2 e3 e4 e5 e6 rfl rfl

unseal Rat.add Rat.mul Rat.sub Rat.inv in
/-- C1 counterexample: aggregating `[A]` gives `line_pct = 100`, but
aggregating `[A, B]` — where B only adds an uncovered line — drops
`line_pct` to 50: the percentages are NOT monotone under additional input,
refuting the claim as stated. -/
theorem claim1_counterexample :
    (parse_cobertura_union [.ok exLineA]).line_pct = 100
    ∧ (parse_cobertura_union [.ok exLineA, .ok exLineB]).line_pct = 50
    ∧ (parse_cobertura_union [.ok exLineA, .ok exLineB]).line_pct
        < (parse_cobertura_union [.ok exLineA]).line_pct := by
  decide

/-- C1 (amended): aggregating `[A]` and then `[A, B]` never decreases
`lines_covered` or `branches_covered`; the two percentages, by contrast,
may decrease (see the counterexample). -/
theorem claim1_counts_monotone (A B : ReportDoc) :
    (parse_cobertura_union [.ok A]).lines_covered
        ≤ (parse_cobertura_union [.ok A, .ok B]).lines_covered
    ∧ (parse_cobertura_union [.ok A]).branches_covered
        ≤ (parse_cobertura_union [.ok A, .ok B]).branches_covered := by
  have hA : factsOf [.ok A] = docFacts A := by simp [factsOf]
  have hAB : factsOf [.ok A, .ok B] = docFacts A ++ docFacts B := by simp [factsOf]
  constructor
  · rw [union_lines_covered, union_lines_covered, hA, hAB, covSetL_append]
    exact Finset.card_le_card Finset.subset_union_left
  · rw [union_branches_covered, union_branches_covered, hA, hAB, bkeySetL_append]
    calc (bkeySetL (docFacts A)).sum (fun k => covMax (docFacts A) k)
        ≤ (bkeySetL (docFacts A)).sum (fun k => covMax (docFacts A ++ docFacts B) k) := by
          refine Finset.sum_le_sum ?_
          intro k _
          rw [covMax_append]
          exact Nat.le_max_left _ _
      _ ≤ (bkeySetL (docFacts A) ∪ bkeySetL (docFacts B)).sum
            (fun k => covMax (docFacts A ++ docFacts B) k) :=
          Finset.sum_le_sum_of_subset Finset.subset_union_left

/-- C6 counterexample: the claim's concrete scenario is arithmetically
inconsistent.  Reports A and B here satisfy every stated constraint —
A is 100 valid / 80 covered, B is 100 valid / 85 covered, 90 lines are
shared, and B covers exactly 5 lines A does not — yet the union has
`lines_covered = 85`, not the claimed 90 (the claimed `lines_valid = 110`
does hold).  With only 5 newly covered lines the union can only reach
80 + 5 = 85. -/
theorem claim6_counterexample :
    (parse_cobertura_union [.ok reportA]).lines_valid = 100
    ∧ (parse_cobertura_union [.ok reportA]).lines_covered = 80
    ∧ (parse_cobertura_union [.ok reportB5]).lines_valid = 100
    ∧ (parse_cobertura_union [.ok reportB5]).lines_covered = 85
    ∧ (keySetL (docFacts reportA) ∩ keySetL (docFacts reportB5)).card = 90
    ∧ (covSetL (docFacts reportB5) \ covSetL (docFacts reportA)).card = 5
    ∧ (parse_cobertura_union [.ok reportA, .ok reportB5]).lines_valid = 110
    ∧ (parse_cobertura_union [.ok reportA, .ok reportB5]).lines_covered = 85 := by
  decide

/-- C6 (amended): the union never counts a `(file_path, line_number)` key
twice — `lines_valid` is the cardinality of the union of the two reports'
key sets and `lines_covered` the cardinality of the union of their
covered-key sets, so a key hit in both reports contributes exactly one
covered line.  In the concrete scenario (A: 100 valid / 80 covered,
B: 100 valid / 85 covered, 90 shared lines, B covering 10 lines A does
not) the union is `lines_valid = 110`, `lines_covered = 90`. -/
theorem claim6_no_double_counting :
    (∀ A B : ReportDoc,
      (parse_cobertura_union [.ok A, .ok B]).lines_valid
        = (keySetL (docFacts A) ∪ keySetL (docFacts B)).card
      ∧ (parse_cobertura_union [.ok A, .ok B]).lines_covered
        = (covSetL (docFacts A) ∪ covSetL (docFacts B)).card)
    ∧ (parse_cobertura_union [.ok reportA]).lines_covered = 80
    ∧ (parse_cobertura_union [.ok reportB10]).lines_valid = 100
    ∧ (parse_cobertura_union [.ok reportB10]).lines_covered = 85
    ∧ (keySetL (docFacts reportA) ∩ keySetL (docFacts reportB10)).card = 90
    ∧ (covSetL (docFacts reportB10) \ covSetL (docFacts reportA)).card = 10
    ∧ (parse_cobertura_union [.ok reportA, .ok reportB10]).lines_valid = 110
    ∧ (parse_cobertura_union [.ok reportA, .ok reportB10]).lines_covered = 90 := by
  refine ⟨?_, by decide⟩
  intro A B
  have hAB : factsOf [.ok A, .ok B] = docFacts A ++ docFacts B := by simp [factsOf]
  constructor
  · rw [union_lines_valid, hAB, keySetL_append]
  · rw [union_lines_covered, hAB, covSetL_append]

unseal Rat.add Rat.mul Rat.sub Rat.inv in
/-- C2 counterexample: with both threshold variables ABSENT (not set at all)
the axes are not disabled — the code substitutes the defaults `"90"`/`"85"` —
so a snapshot with `line_pct = 50` fails the gate even though the claim says
an absent minimum disables the axis and the verdict always passes. -/
theorem claim2_counterexample :
    (gateOutcome 0 (some exUnion50) none none none none).threshold_ok = false
    ∧ (gateOutcome 0 (some exUnion50) none none none none).status = "coverage_failed" := by
  decide

/-- C2 (amended): an axis whose configured minimum is the EMPTY STRING is
disabled and never contributes to a coverage failure — with both minimums
empty the verdict always passes — and each axis is independently
disableable: with `lines_min = ""` the verdict does not depend on
`line_pct`, and with `branches_min = ""` it does not depend on
`branch_pct`.  An absent variable, by contrast, defaults to `"90"`/`"85"`
and stays gated (see the counterexample). -/
theorem claim2_empty_disables (u u' : UnionOut) (lm bm : String) :
    thresholdOk (some u) "" "" = true
    ∧ (gateOutcome 0 (some u) (some "") (some "") none none).status = "ok"
    ∧ (u.branch_pct = u'.branch_pct →
        thresholdOk (some u) "" bm = thresholdOk (some u') "" bm)
    ∧ (u.line_pct = u'.line_pct →
        thresholdOk (some u) lm "" = thresholdOk (some u') lm "") := by
  refine ⟨by simp [thresholdOk], by simp [gateOutcome, thresholdOk], ?_, ?_⟩
  · intro h
    by_cases hbm : bm = ""
    · simp [thresholdOk, hbm]
    · simp only [thresholdOk, hbm]
      cases pyFloat bm with
      | none => simp
      | some b => simp [h]
  · intro h
    by_cases hlm : lm = ""
    · simp [thresholdOk, hlm]
    · simp only [thresholdOk, hlm]
      cases pyFloat lm with
      | none => simp [hlm]
      | some l => simp [hlm, h]

/-- C2 witness: the amended theorem applied at concrete snapshots —
`exUnion50` and `exUnion100` share `branch_pct = 0`, so disabling the lines
axis makes the verdict agree on them. -/
theorem claim2_witness :
    thresholdOk (some exUnion50) "" "" = true
    ∧ (gateOutcome 0 (some exUnion50) (some "") (some "") none none).status = "ok"
    ∧ thresholdOk (some exUnion50) "" "85" = thresholdOk (some exUnion100) "" "85"
    ∧ thresholdOk (some exUnion50) "90" "" = thresholdOk (some exUnion50) "90" "" :=
  ⟨(claim2_empty_disables exUnion50 exUnion100 "90" "85").1,
   (claim2_empty_disables exUnion50 exUnion100 "90" "85").2.1,
   (claim2_empty_disables exUnion50 exUnion100 "90" "85").2.2.1 (by decide),
   (claim2_empty_disables exUnion50 exUnion50 "90" "85").2.2.2 rfl⟩

unseal Rat.add Rat.mul Rat.sub Rat.inv in
/-- C3: the code's actual behaviour at a malformed threshold.  With
`COVERAGE_LINES_MIN="abc"` the `float()` failure is swallowed by
`except Exception: pass`: no `ConfigError` exists, aggregation has already
run, `threshold_ok` keeps its prior value `True` and the run exits 0 with
status `ok` — where the claim requires an abort before aggregation with a
failure result.  With `"150"` (> 100) there is no error either: the value
is simply compared, so the gate fails with exit 2. -/
theorem claim3_code_behavior :
    gateOutcome 0 (some exUnion50) (some "abc") (some "") none none
      = ⟨true, "ok", [], 0⟩
    ∧ gateOutcome 0 (some exUnion100) (some "150") (some "") none none
      = ⟨false, "coverage_failed", [], 2⟩ := by
  decide

unseal Rat.add Rat.mul Rat.sub Rat.inv in
/-- C4 counterexample: a whitespace-only reason `" "` is a non-empty string,
yet the override is rejected (`.strip()` empties it): with tests passed,
coverage failed and the override flag set, the status stays
`coverage_failed` and no audit record is appended — refuting the claim that
every non-empty reason is accepted. -/
theorem claim4_counterexample :
    (gateOutcome 0 (some exUnion50) (some "90") (some "85") (some "1") (some " ")).status
      = "coverage_failed"
    ∧ (gateOutcome 0 (some exUnion50) (some "90") (some "85") (some "1") (some " ")).overrides
      = [] := by
  decide

/-- C4 (amended): for a run with tests passed and coverage verdict failed,
(a) if the test execution failed the override is never considered — the
status is `tests_failed` and no record is appended — regardless of the
reason (present or missing); (b) an override whose reason is MISSING
(`COVERAGE_OVERRIDE_REASON` unset), empty, or whitespace-only (trims to
the empty string) is rejected and the status remains `coverage_failed`
with no record; (c) an override with the override flag enabled and a
reason that is non-empty AFTER trimming is accepted: the status becomes
`coverage_overridden` and exactly one OverrideRecord is appended.
In (a) and (b) the reason is an arbitrary `Option String`; the hypothesis
of (b) — every present reason trims to empty — holds vacuously for the
missing reason `none`. -/
theorem claim4_override_gating (u : UnionOut) (lm bm : String) (oa orr : Option String)
    (r : String) (tr : Int) :
    (tr ≠ 0 →
      (gateOutcome tr (some u) (some lm) (some bm) oa orr).status = "tests_failed"
      ∧ (gateOutcome tr (some u) (some lm) (some bm) oa orr).overrides = [])
    ∧ (thresholdOk (some u) lm bm = false → (∀ s, orr = some s → pyStrip s = "") →
      (gateOutcome 0 (some u) (some lm) (some bm) oa orr).status = "coverage_failed"
      ∧ (gateOutcome 0 (some u) (some lm) (some bm) oa orr).overrides = [])
    ∧ (thresholdOk (some u) lm bm = false → overrideAllowOk oa = true → pyStrip r ≠ "" →
      (gateOutcome 0 (some u) (some lm) (some bm) oa (some r)).status = "coverage_overridden"
      ∧ (gateOutcome 0 (some u) (some lm) (some bm) oa (some r)).overrides.length = 1) := by
  refine ⟨?_, ?_, ?_⟩
  · intro htr
    simp [gateOutcome, htr]
  · intro hth hor
    cases orr with
    | none => simp [gateOutcome, hth]
    | some s =>
      have hs := hor s rfl
      simp [gateOutcome, hth, hs]
  · intro hth hoa hr
    have hrne : r ≠ "" := by
      intro h
      subst h
      exact hr (by decide)
    simp [gateOutcome, hth, hoa, hr, hrne]

unseal Rat.add Rat.mul Rat.sub Rat.inv in
/-- C4 witness: the amended theorem applied at `exUnion50` with thresholds
90/85 — tests failed (rc 1) rejects; a MISSING reason (env var unset)
rejects; an empty reason rejects; the scenario reason is accepted with
exactly one audit record. -/
theorem claim4_witness :
    ((gateOutcome 1 (some exUnion50) (some "90") (some "85") (some "1") (some "x")).status
        = "tests_failed")
    ∧ ((gateOutcome 0 (some exUnion50) (some "90") (some "85") (some "1") none).status
        = "coverage_failed")
    ∧ ((gateOutcome 0 (some exUnion50) (some "90") (some "85") (some "1") (some "")).status
        = "coverage_failed")
    ∧ ((gateOutcome 0 (some exUnion50) (some "90") (some "85") (some "1")
          (some "approved by release manager, see ticket X")).status = "coverage_overridden"
       ∧ (gateOutcome 0 (some exUnion50) (some "90") (some "85") (some "1")
          (some "approved by release manager, see ticket X")).overrides.length = 1) :=
  ⟨((claim4_override_gating exUnion50 "90" "85" (some "1") (some "x") "x" 1).1 (by decide)).1,
   ((claim4_override_gating exUnion50 "90" "85" (some "1") none "x" 0).2.1
      (by decide) (fun s h => nomatch h)).1,
   ((claim4_override_gating exUnion50 "90" "85" (some "1") (some "") "x" 0).2.1
      (by decide) (fun s h => by cases h; decide)).1,
   (claim4_override_gating exUnion50 "90" "85" (some "1") none
      "approved by release manager, see ticket X" 0).2.2 (by decide) (by decide) (by decide)⟩

/-- C5 counterexample: for a branch-flagged line whose condition-coverage
expression does not parse, the code records NOTHING — no parse failure is
surfaced (`errors = []`) and no branch entry (not even `(0, 0)`) is created —
refuting the claim that a parse failure is recorded for the fact.  (The
line-hit fact itself is still counted.) -/
theorem claim5_counterexample :
    (parse_cobertura_union [.ok exBranchBad]).errors = []
    ∧ (unionState [.ok exBranchBad]).bkeys = ∅
    ∧ (parse_cobertura_union [.ok exBranchBad]).branches_valid = 0
    ∧ (parse_cobertura_union [.ok exBranchBad]).lines_valid = 1 := by
  decide

/-- C5 (amended): a branch-flagged line whose condition-coverage expression
fails to parse is silently skipped for branch accounting: the branch key
set and both branch valuations are left unchanged — in particular no
`(0, 0)` value is recorded, so the fact can appear neither as fully covered
nor as fully uncovered in the aggregate.  No per-fact parse failure is
recorded anywhere (the only error channel is per-report). -/
theorem claim5_unparsable_cc_skipped (st : UState) (f : String) (le : LineEntry)
    (k : String × Int)
    (hb : strLower le.branch = "true")
    (hcc : ∀ cc, le.cc = some cc → ccSearch cc.data = none) :
    (stepLine f st le).bkeys = st.bkeys
    ∧ (stepLine f st le).bcov k = st.bcov k
    ∧ (stepLine f st le).bval k = st.bval k := by
  rcases le with ⟨num, hits, branch, cc⟩
  cases num with
  | none => exact ⟨rfl, rfl, rfl⟩
  | some n =>
    by_cases hn : n ≤ 0
    · simp [stepLine, hn]
    · cases cc with
      | none => simp [stepLine, hn, hb]
      | some c =>
        by_cases hc : c = ""
        · simp [stepLine, hn, hb, hc]
        · have h := hcc c rfl
          simp [stepLine, hn, hb, hc, h]

/-- C5 witness: the amended theorem applied to the concrete unparsable line
of `exBranchBad`, starting from the empty scan state. -/
theorem claim5_witness :
    (stepLine "f" initState ⟨some 3, some 1, "true", some "garbage"⟩).bkeys = initState.bkeys
    ∧ (stepLine "f" initState ⟨some 3, some 1, "true", some "garbage"⟩).bcov ("f", 3)
        = initState.bcov ("f", 3)
    ∧ (stepLine "f" initState ⟨some 3, some 1, "true", some "garbage"⟩).bval ("f", 3)
        = initState.bval ("f", 3) :=
  claim5_unparsable_cc_skipped initState "f" ⟨some 3, some 1, "true", some "garbage"⟩
    ("f", 3) (by decide) (fun cc h => by cases h; decide)

/-- C10: when no coverage report file is produced (the cobertura path list
is empty), `coverage` is `None` and the threshold block is skipped
entirely: `threshold_ok` stays `true` for every configuration of the two
minimums, and with tests passed the final status is `ok` — despite the
absence of any coverage evidence. -/
theorem claim10_no_reports_skips_gate (lme bme oa orr : Option String) :
    (gateOutcome 0 (coverageOf []) lme bme oa orr).threshold_ok = true
    ∧ (gateOutcome 0 (coverageOf []) lme bme oa orr).status = "ok" := by
  constructor <;> simp [gateOutcome, coverageOf, thresholdOk]

unseal Rat.add Rat.mul Rat.sub Rat.inv in
/-- C8: aggregating zero input reports produces `lines_valid = 0` and both
percentages equal to `0`; the aggregator is a total function, so no
division error or exception can occur. -/
theorem claim8_empty_input :
    (parse_cobertura_union []).lines_valid = 0
    ∧ (parse_cobertura_union []).line_pct = 0
    ∧ (parse_cobertura_union []).branch_pct = 0 := by
  decide

end RunDotnet
